import Mathlib

/-!
# Verification of the nble GATT internal interface (`drivers/nble/gatt_internal.h`)

The repository fragment is a single C header declaring the message contract
between a Bluetooth host stack and a separate BLE controller for the GATT
layer.  The header declares request functions (`ble_gattc_write_req`,
`ble_gattc_read_req`, `ble_gatt_register_req`, ...), their response callbacks
(`on_ble_gattc_write_rsp`, `on_ble_gatt_register_rsp`, ...), and unsolicited
event callbacks (`on_ble_gattc_to_evt`, `on_ble_gatts_write_evt`, ...).

The implementation behind these declarations (the request/response/event
correlator) is not part of the available sources, so the correlator, the
attribute-index builder and the notification sender are modelled from the
specification, faithfully to its words; the struct layouts, field widths and
function signatures are embedded directly from the header.

Machine integers are modelled as `Nat` with explicit `% 2^w` where the C
parameter width truncates (`uint8_t` ↦ `% 256`, `uint16_t` ↦ `% 65536`).
-/

/-! ## Structures embedded from the header -/

/-- `struct ble_gatt_register` (gatt_internal.h:49–53): registration request
for one service.  The struct carries exactly two fields — a service database
index ("used in response to match request") and the attribute count.  It has
no connection handle and no `priv` pointer. -/
structure ble_gatt_register where
  service_idx : Nat
  attr_count : Nat
deriving DecidableEq, Repr

/-- `struct ble_gatt_attr_idx_entry` (gatt_internal.h:301–303): one entry of
the conversion table returned on registering; a controller-assigned handle. -/
structure ble_gatt_attr_idx_entry where
  handle : Nat
deriving DecidableEq, Repr

/-- `struct ble_gatt_notif_ind_params` (gatt_internal.h:100–103). -/
structure ble_gatt_notif_ind_params where
  val_handle : Nat
  offset : Nat
deriving DecidableEq, Repr

/-- `struct ble_gatt_send_notif_ind_params` (gatt_internal.h:109–112). -/
structure ble_gatt_send_notif_ind_params where
  conn_handle : Nat
  params : ble_gatt_notif_ind_params
deriving DecidableEq, Repr

/-- `struct ble_gattc_to_evt` (gatt_internal.h:512–515): the connection-scoped
GATT timeout event. -/
structure ble_gattc_to_evt where
  conn_handle : Nat
  reason : Nat
deriving DecidableEq, Repr

/-! ## Data model of the correlation protocol

Modelled from the spec: the implementation behind the header's declarations is
not in the sources; §3/§4.1 of the specification describe the
Request/Response/Event Correlator these definitions embed. -/

/-- Modelled from the spec: operation kinds of the tagged `Operation` variant
(§3 Data model); one constructor per outbound GATT operation family declared
in the header. -/
inductive OpKind where
  | register
  | setAttribute
  | getAttribute
  | sendServiceChanged
  | write (with_resp : Bool)
  | read
  | sendNotification
  | sendIndication
  | discover
deriving DecidableEq, Repr

/-- Modelled from the spec: error taxonomy of §7. -/
inductive GattError where
  | duplicatePending
  | unmatchedResponse
  | arityMismatch
  | unknownAttribute
deriving DecidableEq, Repr

/-- Modelled from the spec: a `PendingRequest` is created when an operation is
issued; it holds the correlation token (the `priv` pointer concept) and the
operation kind, keyed by connection handle.  The `id` is an internal serial
number used only to track identity of entries across the run. -/
structure PendingRequest where
  id : Nat
  conn : Nat
  kind : OpKind
  token : Nat
deriving DecidableEq, Repr

/-- Modelled from the spec: how a pending entry was resolved — by its matching
response (carrying the peer status) or by the connection-scoped timeout. -/
inductive Cause where
  | completed (status : Int)
  | timedOut
deriving DecidableEq, Repr

/-- Modelled from the spec: one delivery of the completion callback: the
request it resolves (`id`), the correlation token returned to the caller, and
the cause. -/
structure Resolution where
  id : Nat
  token : Nat
  cause : Cause
deriving DecidableEq, Repr

/-- Modelled from the spec: the correlator state — a pending table, the list
of completion callbacks delivered so far (most recent first), and the log of
reportable anomalies. -/
structure Correlator where
  nextId : Nat
  pending : List PendingRequest
  resolutions : List Resolution
  anomalies : List GattError
deriving DecidableEq, Repr

/-- The empty correlator. -/
def Correlator.init : Correlator := ⟨0, [], [], []⟩

/-- Modelled from the spec: whether a request is already outstanding on the
correlation key (connection handle, operation kind). -/
def keyBusy (st : Correlator) (conn : Nat) (kind : OpKind) : Bool :=
  st.pending.any fun p => decide (p.conn = conn ∧ p.kind = kind)

/-- Modelled from the spec: `issue(op, token) -> PendingRequestId` registers
intent; fails with `DuplicatePending` if the serialization rule is violated
(same connection + operation kind already outstanding). -/
def issue (st : Correlator) (conn : Nat) (kind : OpKind) (token : Nat) :
    Except GattError (Correlator × Nat) :=
  if keyBusy st conn kind then .error .duplicatePending
  else .ok ({ st with
              nextId := st.nextId + 1,
              pending := ⟨st.nextId, conn, kind, token⟩ :: st.pending },
            st.nextId)

/-- Modelled from the spec: `complete(key, status, payload)` resolves the
pending entry on the key, invokes the caller's completion callback with the
token, and removes the entry; if no pending entry exists it logs
`UnmatchedResponse` and drops the response (it is a total function — it never
crashes). -/
def complete (st : Correlator) (conn : Nat) (kind : OpKind) (status : Int) :
    Correlator :=
  match st.pending.find? (fun p => decide (p.conn = conn ∧ p.kind = kind)) with
  | some p =>
      { st with
        pending := st.pending.filter fun q => decide (q.id ≠ p.id),
        resolutions := ⟨p.id, p.token, .completed status⟩ :: st.resolutions }
  | none => { st with anomalies := .unmatchedResponse :: st.anomalies }

/-- Modelled from the spec: the handler of `on_ble_gattc_to_evt` — the
per-connection timeout event fails every pending request on that connection
with a timeout status and leaves the others in place. -/
def timeoutEvt (st : Correlator) (conn : Nat) : Correlator :=
  { st with
    pending := st.pending.filter fun p => decide (p.conn ≠ conn),
    resolutions :=
      ((st.pending.filter fun p => decide (p.conn = conn)).map
        fun p => ⟨p.id, p.token, .timedOut⟩) ++ st.resolutions }

/-- Modelled from the spec: the inputs the correlator reacts to — a caller
issuing a request, the transport delivering a response on a key, and the
transport delivering a connection-scoped timeout event. -/
inductive CorrEvent where
  | issueEvt (conn : Nat) (kind : OpKind) (token : Nat)
  | responseEvt (conn : Nat) (kind : OpKind) (status : Int)
  | toEvt (conn : Nat)
deriving DecidableEq, Repr

/-- Modelled from the spec: one dispatch step of the single-threaded
event-driven correlator. A rejected `issue` (DuplicatePending) leaves the
state unchanged. -/
def step (st : Correlator) (e : CorrEvent) : Correlator :=
  match e with
  | .issueEvt c k t =>
      match issue st c k t with
      | .ok (st', _) => st'
      | .error _ => st
  | .responseEvt c k s => complete st c k s
  | .toEvt c => timeoutEvt st c

/-- Modelled from the spec: run the correlator over a trace of events. -/
def run (st : Correlator) (es : List CorrEvent) : Correlator :=
  es.foldl step st

/-! ## Well-formedness invariant of the correlator -/

/-- Serial numbers of the entries currently pending. -/
def pendingIds (st : Correlator) : List Nat :=
  st.pending.map PendingRequest.id

/-- Serial numbers of the requests whose completion callback has been
delivered. -/
def resolvedIds (st : Correlator) : List Nat :=
  st.resolutions.map Resolution.id

/-- Correlation keys of the entries currently pending. -/
def pendingKeys (st : Correlator) : List (Nat × OpKind) :=
  st.pending.map fun p => (p.conn, p.kind)

/-- Well-formedness of a correlator state: serial numbers are below the
allocation counter and are never shared between two pending entries, two
resolutions, or a pending entry and a resolution; at most one pending entry
exists per correlation key. -/
structure WF (st : Correlator) : Prop where
  pend_lt : ∀ p ∈ st.pending, p.id < st.nextId
  res_lt : ∀ r ∈ st.resolutions, r.id < st.nextId
  pend_nodup : (pendingIds st).Nodup
  res_nodup : (resolvedIds st).Nodup
  disj : ∀ p ∈ st.pending, ∀ r ∈ st.resolutions, p.id ≠ r.id
  keys_nodup : (pendingKeys st).Nodup

theorem wf_init : WF Correlator.init := by
  constructor <;> simp [Correlator.init, pendingIds, resolvedIds, pendingKeys]

theorem keyBusy_iff (st : Correlator) (conn : Nat) (kind : OpKind) :
    keyBusy st conn kind = true ↔
      ∃ p ∈ st.pending, p.conn = conn ∧ p.kind = kind := by
  simp [keyBusy, List.any_eq_true]

theorem issue_ok_elim (st : Correlator) (conn : Nat) (kind : OpKind)
    (token : Nat) (st' : Correlator) (i : Nat)
    (h : issue st conn kind token = .ok (st', i)) :
    keyBusy st conn kind = false ∧ i = st.nextId ∧
      st' = { st with
              nextId := st.nextId + 1,
              pending := ⟨st.nextId, conn, kind, token⟩ :: st.pending } := by
  by_cases hb : keyBusy st conn kind
  · simp [issue, hb] at h
  · simp only [issue, hb, if_false, Bool.false_eq_true, ite_false] at h
    refine ⟨by simpa using hb, ?_, ?_⟩
    · exact (Prod.mk.injEq _ _ _ _ ▸ (Except.ok.injEq _ _ ▸ h)).2.symm
    · exact ((Prod.mk.injEq _ _ _ _ ▸ (Except.ok.injEq _ _ ▸ h)).1).symm

theorem wf_issue (st : Correlator) (hwf : WF st) (conn : Nat) (kind : OpKind)
    (token : Nat) (st' : Correlator) (i : Nat)
    (h : issue st conn kind token = .ok (st', i)) : WF st' := by
  obtain ⟨hfree, -, rfl⟩ := issue_ok_elim st conn kind token st' i h
  constructor
  · intro p hp
    rcases List.mem_cons.mp hp with rfl | hp
    · exact Nat.lt_succ_self _
    · exact Nat.lt_succ_of_lt (hwf.pend_lt p hp)
  · intro r hr
    exact Nat.lt_succ_of_lt (hwf.res_lt r hr)
  · refine List.nodup_cons.mpr ⟨?_, hwf.pend_nodup⟩
    intro hmem
    rcases List.mem_map.mp hmem with ⟨p, hp, hpid⟩
    exact absurd hpid (Nat.ne_of_lt (hwf.pend_lt p hp))
  · exact hwf.res_nodup
  · intro p hp r hr
    rcases List.mem_cons.mp hp with rfl | hp
    · exact (Nat.ne_of_lt (hwf.res_lt r hr)).symm
    · exact hwf.disj p hp r hr
  · refine List.nodup_cons.mpr ⟨?_, hwf.keys_nodup⟩
    intro hmem
    rcases List.mem_map.mp hmem with ⟨p, hp, hpkey⟩
    have : keyBusy st conn kind = true := by
      refine (keyBusy_iff st conn kind).mpr ⟨p, hp, ?_, ?_⟩
      · exact congrArg Prod.fst hpkey
      · exact congrArg Prod.snd hpkey
    rw [this] at hfree; exact Bool.noConfusion hfree

theorem complete_found (st : Correlator) (conn : Nat) (kind : OpKind)
    (status : Int) (p : PendingRequest)
    (h : st.pending.find? (fun p => decide (p.conn = conn ∧ p.kind = kind)) =
      some p) :
    complete st conn kind status =
      { st with
        pending := st.pending.filter fun q => decide (q.id ≠ p.id),
        resolutions :=
          ⟨p.id, p.token, .completed status⟩ :: st.resolutions } := by
  unfold complete
  rw [h]

theorem complete_unmatched (st : Correlator) (conn : Nat) (kind : OpKind)
    (status : Int)
    (h : st.pending.find? (fun p => decide (p.conn = conn ∧ p.kind = kind)) =
      none) :
    complete st conn kind status =
      { st with anomalies := .unmatchedResponse :: st.anomalies } := by
  unfold complete
  rw [h]

theorem step_issue_busy (st : Correlator) (conn : Nat) (kind : OpKind)
    (token : Nat) (hb : keyBusy st conn kind = true) :
    step st (.issueEvt conn kind token) = st := by
  simp [step, issue, hb]

theorem step_issue_free (st : Correlator) (conn : Nat) (kind : OpKind)
    (token : Nat) (hb : keyBusy st conn kind = false) :
    step st (.issueEvt conn kind token) =
      { st with
        nextId := st.nextId + 1,
        pending := ⟨st.nextId, conn, kind, token⟩ :: st.pending } := by
  simp [step, issue, hb]

theorem wf_complete (st : Correlator) (hwf : WF st) (conn : Nat)
    (kind : OpKind) (status : Int) : WF (complete st conn kind status) := by
  cases hfind : st.pending.find?
      (fun p => decide (p.conn = conn ∧ p.kind = kind)) with
  | none =>
      rw [complete_unmatched st conn kind status hfind]
      exact ⟨hwf.pend_lt, hwf.res_lt, hwf.pend_nodup, hwf.res_nodup,
             hwf.disj, hwf.keys_nodup⟩
  | some p =>
      rw [complete_found st conn kind status p hfind]
      have hp : p ∈ st.pending := List.mem_of_find?_eq_some hfind
      have hsub : List.Sublist
          (st.pending.filter fun q => decide (q.id ≠ p.id)) st.pending :=
        List.filter_sublist st.pending
      constructor
      · intro q hq
        exact hwf.pend_lt q (hsub.subset hq)
      · intro r hr
        rcases List.mem_cons.mp hr with rfl | hr
        · exact hwf.pend_lt p hp
        · exact hwf.res_lt r hr
      · exact hwf.pend_nodup.sublist (hsub.map PendingRequest.id)
      · refine List.nodup_cons.mpr ⟨?_, hwf.res_nodup⟩
        intro hmem
        rcases List.mem_map.mp hmem with ⟨r, hr, hrid⟩
        exact hwf.disj p hp r hr hrid.symm
      · intro q hq r hr
        rcases List.mem_filter.mp hq with ⟨hqmem, hqpred⟩
        rcases List.mem_cons.mp hr with rfl | hr
        · exact of_decide_eq_true hqpred
        · exact hwf.disj q hqmem r hr
      · exact hwf.keys_nodup.sublist (hsub.map _)

theorem wf_timeout (st : Correlator) (hwf : WF st) (conn : Nat) :
    WF (timeoutEvt st conn) := by
  have hsubK : List.Sublist
      (st.pending.filter fun p => decide (p.conn ≠ conn)) st.pending :=
    List.filter_sublist st.pending
  have hsubM : List.Sublist
      (st.pending.filter fun p => decide (p.conn = conn)) st.pending :=
    List.filter_sublist st.pending
  constructor
  · intro q hq
    exact hwf.pend_lt q (hsubK.subset hq)
  · intro r hr
    rcases List.mem_append.mp hr with hr | hr
    · rcases List.mem_map.mp hr with ⟨q, hq, rfl⟩
      exact hwf.pend_lt q (hsubM.subset hq)
    · exact hwf.res_lt r hr
  · exact hwf.pend_nodup.sublist (hsubK.map PendingRequest.id)
  · show ((((st.pending.filter fun p => decide (p.conn = conn)).map
        fun p => (⟨p.id, p.token, .timedOut⟩ : Resolution)) ++
          st.resolutions).map Resolution.id).Nodup
    rw [List.map_append, List.map_map]
    refine List.Nodup.append ?_ hwf.res_nodup ?_
    · exact hwf.pend_nodup.sublist (hsubM.map PendingRequest.id)
    · intro a ha hb
      rcases List.mem_map.mp ha with ⟨q, hq, rfl⟩
      rcases List.mem_map.mp hb with ⟨r, hr, hrid⟩
      exact hwf.disj q (hsubM.subset hq) r hr hrid.symm
  · intro q hq r hr
    rcases List.mem_filter.mp hq with ⟨hqmem, hqpred⟩
    rcases List.mem_append.mp hr with hr | hr
    · rcases List.mem_map.mp hr with ⟨q', hq', rfl⟩
      rcases List.mem_filter.mp hq' with ⟨hqmem', hqpred'⟩
      intro hid
      have hqq : q = q' :=
        List.inj_on_of_nodup_map hwf.pend_nodup hqmem hqmem' hid
      subst hqq
      exact (of_decide_eq_true hqpred) (of_decide_eq_true hqpred')
    · exact hwf.disj q hqmem r hr
  · exact hwf.keys_nodup.sublist (hsubK.map _)

theorem wf_step (st : Correlator) (hwf : WF st) (e : CorrEvent) :
    WF (step st e) := by
  cases e with
  | issueEvt c k t =>
      cases hb : keyBusy st c k with
      | false =>
          have hiss : issue st c k t = .ok
              ({ st with
                 nextId := st.nextId + 1,
                 pending := ⟨st.nextId, c, k, t⟩ :: st.pending },
               st.nextId) := by
            simp [issue, hb]
          rw [step_issue_free st c k t hb]
          exact wf_issue st hwf c k t _ st.nextId hiss
      | true =>
          rw [step_issue_busy st c k t hb]
          exact hwf
  | responseEvt c k s => exact wf_complete st hwf c k s
  | toEvt c => exact wf_timeout st hwf c

theorem wf_run (st : Correlator) (hwf : WF st) (es : List CorrEvent) :
    WF (run st es) := by
  induction es generalizing st with
  | nil => exact hwf
  | cons e es ih => exact ih (step st e) (wf_step st hwf e)

/-! ## Tracking one request across a run -/

theorem mem_resolutions_step (st : Correlator) (e : CorrEvent)
    (r : Resolution) (hr : r ∈ st.resolutions) : r ∈ (step st e).resolutions := by
  cases e with
  | issueEvt c k t =>
      cases hb : keyBusy st c k with
      | false => rw [step_issue_free st c k t hb]; exact hr
      | true => rw [step_issue_busy st c k t hb]; exact hr
  | responseEvt c k s =>
      show r ∈ (complete st c k s).resolutions
      cases hfind : st.pending.find?
          (fun p => decide (p.conn = c ∧ p.kind = k)) with
      | none => rw [complete_unmatched st c k s hfind]; exact hr
      | some p =>
          rw [complete_found st c k s p hfind]
          exact List.mem_cons_of_mem _ hr
  | toEvt c =>
      show r ∈ (timeoutEvt st c).resolutions
      unfold timeoutEvt
      exact List.mem_append_right _ hr

theorem mem_resolutions_run (st : Correlator) (tr : List CorrEvent)
    (r : Resolution) (hr : r ∈ st.resolutions) : r ∈ (run st tr).resolutions := by
  induction tr generalizing st with
  | nil => exact hr
  | cons e es ih => exact ih (step st e) (mem_resolutions_step st e r hr)

/-- The correlator still owes, or has already delivered, the completion
callback of request `q`: either `q` is pending, or a resolution carrying
exactly its serial number and its correlation token has been delivered. -/
def Owns (q : PendingRequest) (st : Correlator) : Prop :=
  q ∈ st.pending ∨ ∃ r ∈ st.resolutions, r.id = q.id ∧ r.token = q.token

theorem owns_step (st : Correlator) (hwf : WF st) (q : PendingRequest)
    (h : Owns q st) (e : CorrEvent) : Owns q (step st e) := by
  rcases h with hq | ⟨r, hr, hid, htok⟩
  case inr =>
    exact Or.inr ⟨r, mem_resolutions_step st e r hr, hid, htok⟩
  cases e with
  | issueEvt c k t =>
      cases hb : keyBusy st c k with
      | false =>
          rw [step_issue_free st c k t hb]
          exact Or.inl (List.mem_cons_of_mem _ hq)
      | true =>
          rw [step_issue_busy st c k t hb]
          exact Or.inl hq
  | responseEvt c k s =>
      show Owns q (complete st c k s)
      cases hfind : st.pending.find?
          (fun p => decide (p.conn = c ∧ p.kind = k)) with
      | none => rw [complete_unmatched st c k s hfind]; exact Or.inl hq
      | some p =>
          rw [complete_found st c k s p hfind]
          by_cases hid : q.id = p.id
          · have hp : p ∈ st.pending := List.mem_of_find?_eq_some hfind
            have hqp : q = p :=
              List.inj_on_of_nodup_map hwf.pend_nodup hq hp hid
            subst hqp
            exact Or.inr ⟨⟨q.id, q.token, .completed s⟩,
              List.mem_cons_self _ _, rfl, rfl⟩
          · exact Or.inl (List.mem_filter.mpr ⟨hq, decide_eq_true hid⟩)
  | toEvt c =>
      show Owns q (timeoutEvt st c)
      unfold timeoutEvt
      by_cases hc : q.conn = c
      · refine Or.inr ⟨⟨q.id, q.token, .timedOut⟩, ?_, rfl, rfl⟩
        exact List.mem_append_left _ (List.mem_map.mpr
          ⟨q, List.mem_filter.mpr ⟨hq, decide_eq_true hc⟩, rfl⟩)
      · exact Or.inl (List.mem_filter.mpr ⟨hq, decide_eq_true hc⟩)

theorem owns_run (st : Correlator) (hwf : WF st) (q : PendingRequest)
    (h : Owns q st) (tr : List CorrEvent) : Owns q (run st tr) := by
  induction tr generalizing st with
  | nil => exact h
  | cons e es ih =>
      exact ih (step st e) (wf_step st hwf e) (owns_step st hwf q h e)

/-- A matching response resolves a pending request on its key, delivering a
resolution that carries the request's serial number and token. -/
theorem resolved_by_response (st : Correlator) (hwf : WF st)
    (q : PendingRequest) (hq : q ∈ st.pending) (s : Int) :
    ∃ r ∈ (complete st q.conn q.kind s).resolutions,
      r.id = q.id ∧ r.token = q.token := by
  cases hfind : st.pending.find?
      (fun p => decide (p.conn = q.conn ∧ p.kind = q.kind)) with
  | none =>
      exfalso
      exact List.find?_eq_none.mp hfind q hq (decide_eq_true ⟨rfl, rfl⟩)
  | some p =>
      rw [complete_found st q.conn q.kind s p hfind]
      have hp : p ∈ st.pending := List.mem_of_find?_eq_some hfind
      have hkey := List.find?_some hfind
      simp only [decide_eq_true_eq] at hkey
      have hpq : p = q := by
        refine List.inj_on_of_nodup_map hwf.keys_nodup hp hq ?_
        rw [hkey.1, hkey.2]
      subst hpq
      exact ⟨⟨p.id, p.token, .completed s⟩, List.mem_cons_self _ _, rfl, rfl⟩

/-- The connection-scoped timeout event resolves every request pending on
that connection, delivering a resolution carrying its serial number and
token. -/
theorem resolved_by_timeout (st : Correlator) (q : PendingRequest)
    (hq : q ∈ st.pending) :
    ∃ r ∈ (timeoutEvt st q.conn).resolutions,
      r.id = q.id ∧ r.token = q.token := by
  unfold timeoutEvt
  refine ⟨⟨q.id, q.token, .timedOut⟩, ?_, rfl, rfl⟩
  exact List.mem_append_left _ (List.mem_map.mpr
    ⟨q, List.mem_filter.mpr ⟨hq, decide_eq_true rfl⟩, rfl⟩)

theorem run_append (st : Correlator) (tr₁ tr₂ : List CorrEvent) :
    run st (tr₁ ++ tr₂) = run (run st tr₁) tr₂ :=
  List.foldl_append step st tr₁ tr₂

theorem run_cons (st : Correlator) (e : CorrEvent) (tr : List CorrEvent) :
    run st (e :: tr) = run (step st e) tr := rfl

/-! ## Claim theorems: request resolution (C1) -/

/-- **C1.** For every request issued through a request function, exactly one
of completion via its matching response callback or timeout via the
connection-scoped timeout event eventually resolves its pending entry, and
never both: over every subsequent event trace the completion callback of the
issued request is delivered at most once, and exactly once as soon as the
trace contains a matching response or the connection's timeout event. -/
theorem c1_request_resolved_exactly_once
    (st : Correlator) (hwf : WF st) (conn : Nat) (kind : OpKind) (token : Nat)
    (st' : Correlator) (i : Nat)
    (hissue : issue st conn kind token = Except.ok (st', i))
    (tr : List CorrEvent) :
    (resolvedIds (run st' tr)).count i ≤ 1 ∧
      (((∃ s, CorrEvent.responseEvt conn kind s ∈ tr) ∨
          CorrEvent.toEvt conn ∈ tr) →
        (resolvedIds (run st' tr)).count i = 1) := by
  obtain ⟨hfree, hi, hst'⟩ := issue_ok_elim st conn kind token st' i hissue
  have hwf' : WF st' := wf_issue st hwf conn kind token st' i hissue
  have hqmem : (⟨st.nextId, conn, kind, token⟩ : PendingRequest) ∈
      st'.pending := by
    rw [hst']; exact List.mem_cons_self _ _
  have hwfT : WF (run st' tr) := wf_run st' hwf' tr
  have key : ∀ r : Resolution, r ∈ (run st' tr).resolutions → r.id = i →
      (resolvedIds (run st' tr)).count i = 1 := by
    intro r hr hid
    refine List.count_eq_one_of_mem hwfT.res_nodup ?_
    exact hid ▸ List.mem_map_of_mem Resolution.id hr
  refine ⟨List.nodup_iff_count_le_one.mp hwfT.res_nodup i, ?_⟩
  rintro (⟨s, hmem⟩ | hmem)
  · rcases List.append_of_mem hmem with ⟨tr₁, tr₂, rfl⟩
    have hwfu : WF (run st' tr₁) := wf_run st' hwf' tr₁
    have hu : Owns ⟨st.nextId, conn, kind, token⟩ (run st' tr₁) :=
      owns_run st' hwf' _ (Or.inl hqmem) tr₁
    have hrun : run st' (tr₁ ++ CorrEvent.responseEvt conn kind s :: tr₂) =
        run (step (run st' tr₁) (CorrEvent.responseEvt conn kind s)) tr₂ := by
      rw [run_append, run_cons]
    rcases hu with hpend | ⟨r, hr, hid, -⟩
    · obtain ⟨r, hr, hid, -⟩ :=
        resolved_by_response (run st' tr₁) hwfu _ hpend s
      refine key r ?_ (hid.trans hi.symm)
      rw [hrun]
      exact mem_resolutions_run _ tr₂ r hr
    · refine key r ?_ (hid.trans hi.symm)
      rw [hrun]
      exact mem_resolutions_run _ tr₂ r
        (mem_resolutions_step (run st' tr₁) _ r hr)
  · rcases List.append_of_mem hmem with ⟨tr₁, tr₂, rfl⟩
    have hwfu : WF (run st' tr₁) := wf_run st' hwf' tr₁
    have hu : Owns ⟨st.nextId, conn, kind, token⟩ (run st' tr₁) :=
      owns_run st' hwf' _ (Or.inl hqmem) tr₁
    have hrun : run st' (tr₁ ++ CorrEvent.toEvt conn :: tr₂) =
        run (step (run st' tr₁) (CorrEvent.toEvt conn)) tr₂ := by
      rw [run_append, run_cons]
    rcases hu with hpend | ⟨r, hr, hid, -⟩
    · obtain ⟨r, hr, hid, -⟩ := resolved_by_timeout (run st' tr₁) _ hpend
      refine key r ?_ (hid.trans hi.symm)
      rw [hrun]
      exact mem_resolutions_run _ tr₂ r hr
    · refine key r ?_ (hid.trans hi.symm)
      rw [hrun]
      exact mem_resolutions_run _ tr₂ r
        (mem_resolutions_step (run st' tr₁) _ r hr)

/-- Witness for C1: issuing a Read on connection 5 with token 42 from the
empty correlator and then delivering the connection-5 timeout event resolves
the request exactly once. -/
theorem c1_request_resolved_exactly_once_w :
    (resolvedIds (run
      { nextId := 1, pending := [⟨0, 5, OpKind.read, 42⟩],
        resolutions := [], anomalies := [] }
      [CorrEvent.toEvt 5])).count 0 = 1 :=
  (c1_request_resolved_exactly_once Correlator.init wf_init 5 OpKind.read 42
      _ 0 rfl [CorrEvent.toEvt 5]).2
    (Or.inr (List.mem_singleton.mpr rfl))

/-! ## Claim theorems: correlation token pass-through (C8) -/

/-- **C8.** For every request issued with an opaque `priv` correlation token,
the token is passed through unmodified and returned to the caller exactly
once, in the completion callback of that request: over every subsequent
event trace, any delivered resolution of the issued request carries exactly
the token given at issue time, and such a resolution is delivered at most
once. -/
theorem c8_token_passthrough
    (st : Correlator) (hwf : WF st) (conn : Nat) (kind : OpKind) (token : Nat)
    (st' : Correlator) (i : Nat)
    (hissue : issue st conn kind token = Except.ok (st', i))
    (tr : List CorrEvent) :
    (∀ r ∈ (run st' tr).resolutions, r.id = i → r.token = token) ∧
      (resolvedIds (run st' tr)).count i ≤ 1 := by
  obtain ⟨hfree, hi, hst'⟩ := issue_ok_elim st conn kind token st' i hissue
  have hwf' : WF st' := wf_issue st hwf conn kind token st' i hissue
  have hqmem : (⟨st.nextId, conn, kind, token⟩ : PendingRequest) ∈
      st'.pending := by
    rw [hst']; exact List.mem_cons_self _ _
  have hwfT : WF (run st' tr) := wf_run st' hwf' tr
  have hu : Owns ⟨st.nextId, conn, kind, token⟩ (run st' tr) :=
    owns_run st' hwf' _ (Or.inl hqmem) tr
  refine ⟨?_, List.nodup_iff_count_le_one.mp hwfT.res_nodup i⟩
  intro r hr hrid
  rcases hu with hpend | ⟨r₀, hr₀, hid₀, htok₀⟩
  · exact absurd (hrid.trans hi) fun h => hwfT.disj _ hpend r hr h.symm
  · have hrr : r = r₀ := by
      refine List.inj_on_of_nodup_map hwfT.res_nodup hr hr₀ ?_
      rw [hrid, hid₀]
      exact hi
    rw [hrr, htok₀]

/-- Witness for C8: issuing a Read on connection 5 with token 42 and then
delivering the matching read response hands back exactly token 42 in the
resolution of request 0. -/
theorem c8_token_passthrough_w :
    (⟨0, 42, Cause.completed 7⟩ : Resolution).token = 42 :=
  (c8_token_passthrough Correlator.init wf_init 5 OpKind.read 42
      _ 0 rfl [CorrEvent.responseEvt 5 OpKind.read 7]).1
    ⟨0, 42, Cause.completed 7⟩ (by decide) rfl

/-! ## Claim theorems: serialization per key (C2) -/

/-- **C2.** While a request is pending on a correlation key (connection
handle, operation kind), a second `issue` on that key fails with
`DuplicatePending`; the key stays busy under every event that does not
resolve it (so the second request keeps failing); and once the first request
resolves via its response, the key is free and a new `issue` succeeds. -/
theorem c2_duplicate_pending
    (st : Correlator) (hwf : WF st) (conn : Nat) (kind : OpKind)
    (hbusy : keyBusy st conn kind = true) :
    (∀ token, issue st conn kind token =
        Except.error GattError.duplicatePending) ∧
    (∀ e : CorrEvent, (∀ s, e ≠ CorrEvent.responseEvt conn kind s) →
        e ≠ CorrEvent.toEvt conn → keyBusy (step st e) conn kind = true) ∧
    (∀ status, keyBusy (complete st conn kind status) conn kind = false ∧
        ∀ token, ∃ st' i,
          issue (complete st conn kind status) conn kind token =
            Except.ok (st', i)) := by
  obtain ⟨p, hp, hpc, hpk⟩ := (keyBusy_iff st conn kind).mp hbusy
  refine ⟨?_, ?_, ?_⟩
  · intro token
    simp [issue, hbusy]
  · intro e hne hnto
    cases e with
    | issueEvt c k t =>
        cases hb : keyBusy st c k with
        | true =>
            rw [step_issue_busy st c k t hb]; exact hbusy
        | false =>
            rw [step_issue_free st c k t hb]
            exact (keyBusy_iff _ conn kind).mpr
              ⟨p, List.mem_cons_of_mem _ hp, hpc, hpk⟩
    | responseEvt c k s =>
        have hkey : ¬(c = conn ∧ k = kind) := by
          rintro ⟨rfl, rfl⟩
          exact hne s rfl
        show keyBusy (complete st c k s) conn kind = true
        cases hfind : st.pending.find?
            (fun q => decide (q.conn = c ∧ q.kind = k)) with
        | none => rw [complete_unmatched st c k s hfind]; exact hbusy
        | some p' =>
            rw [complete_found st c k s p' hfind]
            have hp' : p' ∈ st.pending := List.mem_of_find?_eq_some hfind
            have hkey' := List.find?_some hfind
            simp only [decide_eq_true_eq] at hkey'
            refine (keyBusy_iff _ conn kind).mpr
              ⟨p, List.mem_filter.mpr ⟨hp, decide_eq_true ?_⟩, hpc, hpk⟩
            intro hid
            have hpp : p = p' :=
              List.inj_on_of_nodup_map hwf.pend_nodup hp hp' hid
            exact hkey ⟨by rw [← hkey'.1, ← hpp, hpc],
                        by rw [← hkey'.2, ← hpp, hpk]⟩
    | toEvt c =>
        have hc : c ≠ conn := fun h => hnto (by rw [h])
        show keyBusy (timeoutEvt st c) conn kind = true
        unfold timeoutEvt
        refine (keyBusy_iff _ conn kind).mpr
          ⟨p, List.mem_filter.mpr ⟨hp, decide_eq_true ?_⟩, hpc, hpk⟩
        rw [hpc]; exact fun h => hc h.symm
  · intro status
    have hfind : ¬ st.pending.find?
        (fun q => decide (q.conn = conn ∧ q.kind = kind)) = none := by
      intro hnone
      exact (List.find?_eq_none.mp hnone p hp) (decide_eq_true ⟨hpc, hpk⟩)
    cases hfind' : st.pending.find?
        (fun q => decide (q.conn = conn ∧ q.kind = kind)) with
    | none => exact absurd hfind' hfind
    | some p₀ =>
        have hp₀ : p₀ ∈ st.pending := List.mem_of_find?_eq_some hfind'
        have hkey₀ := List.find?_some hfind'
        simp only [decide_eq_true_eq] at hkey₀
        have hfree : keyBusy (complete st conn kind status) conn kind =
            false := by
          rw [complete_found st conn kind status p₀ hfind']
          cases hb : keyBusy
              { st with
                pending := st.pending.filter fun q => decide (q.id ≠ p₀.id),
                resolutions :=
                  ⟨p₀.id, p₀.token, .completed status⟩ :: st.resolutions }
              conn kind with
          | false => rfl
          | true =>
              exfalso
              obtain ⟨q, hq, hqc, hqk⟩ := (keyBusy_iff _ conn kind).mp hb
              rcases List.mem_filter.mp hq with ⟨hqmem, hqpred⟩
              have hqp : q = p₀ := by
                refine List.inj_on_of_nodup_map hwf.keys_nodup hqmem hp₀ ?_
                rw [hqc, hqk, hkey₀.1, hkey₀.2]
              exact (of_decide_eq_true hqpred) (congrArg PendingRequest.id hqp)
        refine ⟨hfree, fun token =>
          ⟨{ complete st conn kind status with
             nextId := (complete st conn kind status).nextId + 1,
             pending :=
               ⟨(complete st conn kind status).nextId, conn, kind, token⟩ ::
                 (complete st conn kind status).pending },
           (complete st conn kind status).nextId, ?_⟩⟩
        simp [issue, hfree]

/-- Witness for C2: with a with-response Write pending on connection 5, a
second Write on connection 5 fails with DuplicatePending. -/
theorem c2_duplicate_pending_w :
    issue
      { nextId := 1,
        pending := [⟨0, 5, OpKind.write true, 42⟩],
        resolutions := [], anomalies := [] }
      5 (OpKind.write true) 7 =
      Except.error GattError.duplicatePending :=
  (c2_duplicate_pending _ (by constructor <;> decide) 5 (OpKind.write true)
    (by decide)).1 7

/-! ## Claim theorems: timeout frame effect (C4) -/

/-- **C4.** A GATT timeout event carrying a connection handle fails every
pending request whose connection handle equals the event's with a timeout
resolution and removes it from the pending table, while every pending
request on any other connection stays pending and gains no new
resolution. -/
theorem c4_timeout_scoped_to_connection
    (st : Correlator) (hwf : WF st) (conn : Nat) (p : PendingRequest)
    (hp : p ∈ st.pending) :
    (p.conn = conn →
        p ∉ (timeoutEvt st conn).pending ∧
        (⟨p.id, p.token, Cause.timedOut⟩ : Resolution) ∈
          (timeoutEvt st conn).resolutions) ∧
    (p.conn ≠ conn →
        p ∈ (timeoutEvt st conn).pending ∧
        ∀ r ∈ (timeoutEvt st conn).resolutions, r.id = p.id →
          r ∈ st.resolutions) := by
  constructor
  · intro hc
    constructor
    · intro hmem
      rcases List.mem_filter.mp hmem with ⟨-, hpred⟩
      exact (of_decide_eq_true hpred) hc
    · show _ ∈ (timeoutEvt st conn).resolutions
      unfold timeoutEvt
      exact List.mem_append_left _ (List.mem_map.mpr
        ⟨p, List.mem_filter.mpr ⟨hp, decide_eq_true hc⟩, rfl⟩)
  · intro hc
    constructor
    · show p ∈ (timeoutEvt st conn).pending
      unfold timeoutEvt
      exact List.mem_filter.mpr ⟨hp, decide_eq_true hc⟩
    · intro r hr hrid
      rcases List.mem_append.mp hr with hr | hr
      · exfalso
        rcases List.mem_map.mp hr with ⟨q, hq, rfl⟩
        rcases List.mem_filter.mp hq with ⟨hqmem, hqpred⟩
        have hqp : q = p :=
          List.inj_on_of_nodup_map hwf.pend_nodup hqmem hp hrid
        exact hc (by rw [← hqp]; exact of_decide_eq_true hqpred)
      · exact hr

/-- Witness for C4: a timeout on connection 5 leaves the request pending on
connection 6 in the pending table. -/
theorem c4_timeout_scoped_to_connection_w :
    (⟨1, 6, OpKind.read, 43⟩ : PendingRequest) ∈
      (timeoutEvt
        { nextId := 2,
          pending := [⟨0, 5, OpKind.read, 42⟩, ⟨1, 6, OpKind.read, 43⟩],
          resolutions := [], anomalies := [] } 5).pending :=
  ((c4_timeout_scoped_to_connection _ (by constructor <;> decide) 5
      ⟨1, 6, OpKind.read, 43⟩ (by decide)).2 (by decide)).1

/-! ## Claim theorems: unmatched responses (C5) -/

/-- **C5.** An incoming response with no matching pending entry is recorded
as an `UnmatchedResponse` anomaly and dropped: the pending table and the
delivered resolutions are left exactly unchanged, and the handler is a total
function (it returns a state rather than crashing). -/
theorem c5_unmatched_response_logged_and_dropped
    (st : Correlator) (conn : Nat) (kind : OpKind) (status : Int)
    (h : keyBusy st conn kind = false) :
    (complete st conn kind status).pending = st.pending ∧
    (complete st conn kind status).resolutions = st.resolutions ∧
    (complete st conn kind status).anomalies =
      GattError.unmatchedResponse :: st.anomalies := by
  have hfind : st.pending.find?
      (fun p => decide (p.conn = conn ∧ p.kind = kind)) = none := by
    rw [List.find?_eq_none]
    intro p hp hpred
    have hb : keyBusy st conn kind = true :=
      (keyBusy_iff _ _ _).mpr ⟨p, hp, of_decide_eq_true hpred⟩
    rw [hb] at h
    exact Bool.noConfusion h
  rw [complete_unmatched st conn kind status hfind]
  exact ⟨rfl, rfl, rfl⟩

/-- Witness for C5: a read response on connection 6 while only connection 5
has a pending read is logged as UnmatchedResponse and changes nothing
else. -/
theorem c5_unmatched_response_logged_and_dropped_w :
    (complete
      { nextId := 1, pending := [⟨0, 5, OpKind.read, 42⟩],
        resolutions := [], anomalies := [] } 6 OpKind.read 0).pending =
      [⟨0, 5, OpKind.read, 42⟩] ∧
    (complete
      { nextId := 1, pending := [⟨0, 5, OpKind.read, 42⟩],
        resolutions := [], anomalies := [] } 6 OpKind.read 0).resolutions =
      [] ∧
    (complete
      { nextId := 1, pending := [⟨0, 5, OpKind.read, 42⟩],
        resolutions := [], anomalies := [] } 6 OpKind.read 0).anomalies =
      [GattError.unmatchedResponse] :=
  c5_unmatched_response_logged_and_dropped
    { nextId := 1, pending := [⟨0, 5, OpKind.read, 42⟩],
      resolutions := [], anomalies := [] } 6 OpKind.read 0 (by decide)

/-! ## Attribute Index Builder (modelled from the spec §4.2) -/

/-- Modelled from the spec: the attribute-index tables owned by the host —
one optional table of controller-assigned handle entries per service index,
`none` while the Register response for that service has not been
processed. -/
structure AttrIndex where
  tables : Nat → Option (List ble_gatt_attr_idx_entry)

/-- Modelled from the spec: no table built yet. -/
def AttrIndex.empty : AttrIndex := ⟨fun _ => none⟩

/-- Modelled from the spec: `on_register_complete(service_params, entries[])`
— the handler behind `on_ble_gatt_register_rsp` — stores the returned
entries keyed by sequential index matching the order submitted in the
Register request, and fails with `ArityMismatch` when the returned entry
count differs from the submitted attribute count. -/
def on_register_complete (ix : AttrIndex) (par : ble_gatt_register)
    (entries : List ble_gatt_attr_idx_entry) : Except GattError AttrIndex :=
  if entries.length = par.attr_count then
    Except.ok
      ⟨fun s => if s = par.service_idx then some entries else ix.tables s⟩
  else Except.error GattError.arityMismatch

/-- Modelled from the spec: `resolve(service_idx, attr_idx) -> handle` — one
table lookup followed by one position lookup, failing with
`UnknownAttribute` when the table for the service has not been built or the
attribute index is out of range. -/
def resolve (ix : AttrIndex) (svc attr : Nat) : Except GattError Nat :=
  match ix.tables svc with
  | none => Except.error GattError.unknownAttribute
  | some entries =>
      match entries[attr]? with
      | none => Except.error GattError.unknownAttribute
      | some e => Except.ok e.handle

/-! ## Claim theorems: registration arity and index mapping (C3) -/

/-- **C3.** For a Register request submitting N attributes: a register
response delivering M ≠ N entries fails the registration with
`ArityMismatch`; with M = N the registration succeeds and, for every i < N,
resolving attribute index i of that service returns the handle of the i-th
entry of the response array. -/
theorem c3_register_arity_and_index_mapping
    (ix : AttrIndex) (par : ble_gatt_register)
    (entries : List ble_gatt_attr_idx_entry) :
    (entries.length ≠ par.attr_count →
        on_register_complete ix par entries =
          Except.error GattError.arityMismatch) ∧
    (entries.length = par.attr_count →
        ∀ ix', on_register_complete ix par entries = Except.ok ix' →
          ∀ i, ∀ h : i < entries.length,
            resolve ix' par.service_idx i =
              Except.ok (entries.get ⟨i, h⟩).handle) := by
  constructor
  · intro hne
    simp [on_register_complete, hne]
  · intro heq ix' hok i h
    have hix' : ix' =
        ⟨fun s => if s = par.service_idx then some entries
          else ix.tables s⟩ := by
      simp [on_register_complete, heq] at hok
      exact hok.symm
    subst hix'
    have htab : (⟨fun s => if s = par.service_idx then some entries
        else ix.tables s⟩ : AttrIndex).tables par.service_idx =
        some entries := by
      simp
    have hget : entries[i]? = some (entries.get ⟨i, h⟩) :=
      List.getElem?_eq_getElem h
    simp [resolve, htab, hget]

/-- Witness for C3: registering service 2 with 3 attributes and receiving
the 3 handles {10, 11, 12} makes attribute index 1 resolve to handle 11. -/
theorem c3_register_arity_and_index_mapping_w :
    resolve
      ⟨fun s => if s = 2 then some [⟨10⟩, ⟨11⟩, ⟨12⟩]
        else AttrIndex.empty.tables s⟩ 2 1 = Except.ok 11 :=
  (c3_register_arity_and_index_mapping AttrIndex.empty ⟨2, 3⟩
      [⟨10⟩, ⟨11⟩, ⟨12⟩]).2 rfl _ rfl 1 (by decide)

/-! ## Claim theorems: resolve lookup (C7) -/

/-- **C7.** `resolve(service_idx, attr_idx)` is a direct lookup returning
the controller-assigned handle: it fails with `UnknownAttribute` whenever
the table for the service has not been built or the attribute index is out
of range, and returns the stored entry's handle otherwise. -/
theorem c7_resolve_unknown_attribute
    (ix : AttrIndex) (svc attr : Nat) :
    (ix.tables svc = none →
        resolve ix svc attr = Except.error GattError.unknownAttribute) ∧
    (∀ entries, ix.tables svc = some entries →
        (entries.length ≤ attr →
          resolve ix svc attr = Except.error GattError.unknownAttribute) ∧
        (∀ h : attr < entries.length,
          resolve ix svc attr =
            Except.ok (entries.get ⟨attr, h⟩).handle)) := by
  constructor
  · intro hnone
    simp [resolve, hnone]
  · intro entries hsome
    constructor
    · intro hle
      have hget : entries[attr]? = none := List.getElem?_eq_none hle
      simp [resolve, hsome, hget]
    · intro h
      have hget : entries[attr]? = some (entries.get ⟨attr, h⟩) :=
        List.getElem?_eq_getElem h
      simp [resolve, hsome, hget]

/-- Witness for C7: resolving on the empty index fails with
UnknownAttribute. -/
theorem c7_resolve_unknown_attribute_w :
    resolve AttrIndex.empty 0 0 = Except.error GattError.unknownAttribute :=
  (c7_resolve_unknown_attribute AttrIndex.empty 0 0).1 rfl

/-! ## Register correlation (C10) -/

/-- Modelled from the spec: the connection-less Register correlation state —
at most one registration in flight (§4.1's single global
one-registration-in-flight rule) plus the anomaly log. -/
structure RegCorrelator where
  inFlight : Option ble_gatt_register
  anomalies : List GattError
deriving DecidableEq, Repr

/-- Modelled from the spec: `ble_gatt_register_req` registers intent for one
service registration and fails with `DuplicatePending` while another
registration is in flight. -/
def ble_gatt_register_req (st : RegCorrelator) (par : ble_gatt_register) :
    Except GattError RegCorrelator :=
  match st.inFlight with
  | some _ => Except.error GattError.duplicatePending
  | none => Except.ok { st with inFlight := some par }

/-- Modelled from the spec and the header's comment on `service_idx` ("used
in response to match request"): the register response completes the
in-flight request exactly when it echoes that request's `service_idx`;
otherwise it is logged as `UnmatchedResponse` and dropped.  The second
component is the request the response completed, if any. -/
def on_ble_gatt_register_rsp (st : RegCorrelator) (par : ble_gatt_register) :
    RegCorrelator × Option ble_gatt_register :=
  match st.inFlight with
  | some req =>
      if req.service_idx = par.service_idx then
        ({ st with inFlight := none }, some req)
      else
        ({ st with anomalies := .unmatchedResponse :: st.anomalies }, none)
  | none => ({ st with anomalies := .unmatchedResponse :: st.anomalies }, none)

/-! ## Claim theorems: register matching by service_idx (C10) -/

/-- **C10.** A register response is matched to its request solely by echoing
the request's `service_idx`: whenever a response completes a request, the
response's `service_idx` equals that request's, the completed request is the
one in flight, and a `ble_gatt_register` value carries nothing beyond
`service_idx` and `attr_count` to correlate on (no connection handle, no
priv token). -/
theorem c10_register_matched_by_service_idx
    (st : RegCorrelator) (par req : ble_gatt_register)
    (h : (on_ble_gatt_register_rsp st par).2 = some req) :
    req.service_idx = par.service_idx ∧ st.inFlight = some req ∧
      ∀ r₁ r₂ : ble_gatt_register, r₁.service_idx = r₂.service_idx →
        r₁.attr_count = r₂.attr_count → r₁ = r₂ := by
  have hfields : ∀ r₁ r₂ : ble_gatt_register,
      r₁.service_idx = r₂.service_idx → r₁.attr_count = r₂.attr_count →
        r₁ = r₂ := by
    intro r₁ r₂ h₁ h₂
    cases r₁; cases r₂
    simp only at h₁ h₂
    rw [h₁, h₂]
  cases hif : st.inFlight with
  | none =>
      exfalso
      simp only [on_ble_gatt_register_rsp, hif] at h
      exact Option.noConfusion h
  | some req₀ =>
      simp only [on_ble_gatt_register_rsp, hif] at h
      by_cases hsvc : req₀.service_idx = par.service_idx
      · rw [if_pos hsvc] at h
        have : req₀ = req := Option.some.inj h
        subst this
        exact ⟨hsvc, rfl, hfields⟩
      · rw [if_neg hsvc] at h
        exact Option.noConfusion h

/-- Witness for C10: a response echoing service_idx 2 completes the
in-flight registration of service 2. -/
theorem c10_register_matched_by_service_idx_w :
    (RegCorrelator.mk (some ⟨2, 3⟩) []).inFlight =
      some (⟨2, 3⟩ : ble_gatt_register) :=
  (c10_register_matched_by_service_idx ⟨some ⟨2, 3⟩, []⟩ ⟨2, 3⟩ ⟨2, 3⟩
    (by decide)).2.1

/-! ## Notification/Indication Sender (modelled from the spec §4.3) -/

/-- Modelled from the spec: the Notification/Indication Sender tracks the
last non-empty payload written per characteristic value handle, so a
zero-length send can honor the header's contract that "already stored data
is sent". -/
structure SenderState where
  stored : Nat → Option (List Nat)

/-- Modelled from the spec: nothing stored yet. -/
def SenderState.empty : SenderState := ⟨fun _ => none⟩

/-- Modelled from the spec: one send on a value handle.  An empty payload
transmits the stored value for that handle; a non-empty payload is
transmitted and becomes the stored value for that handle.  Returns the new
state and the value put on the wire. -/
def sendValue (st : SenderState) (val_handle : Nat) (data : List Nat) :
    SenderState × Option (List Nat) :=
  if data.isEmpty then (st, st.stored val_handle)
  else
    (⟨fun h => if h = val_handle then some data else st.stored h⟩, some data)

/-- `ble_gatt_send_notif_req` (gatt_internal.h:350–351): the notification
send request takes a `uint16_t` length; the transmitted payload is the first
`length`-truncated-to-16-bits bytes of `data`, and a zero length resends the
stored value. -/
def ble_gatt_send_notif_req (st : SenderState)
    (par : ble_gatt_send_notif_ind_params) (data : List Nat) (length : Nat) :
    SenderState × Option (List Nat) :=
  sendValue st par.params.val_handle (data.take (length % 65536))

/-- `ble_gatt_send_ind_req` (gatt_internal.h:364–365): the indication send
request takes a `uint8_t` length; the transmitted payload is the first
`length`-truncated-to-8-bits bytes of `data`, and a zero length resends the
stored value. -/
def ble_gatt_send_ind_req (st : SenderState)
    (par : ble_gatt_send_notif_ind_params) (data : List Nat) (length : Nat) :
    SenderState × Option (List Nat) :=
  sendValue st par.params.val_handle (data.take (length % 256))

/-- Run a history of raw sends (value handle, payload), oldest first. -/
def runSends (st : SenderState) (hist : List (Nat × List Nat)) :
    SenderState :=
  hist.foldl (fun s hd => (sendValue s hd.1 hd.2).1) st

/-- The last non-empty payload written to value handle `h` by the history,
in the spec's words. -/
def lastNonEmptyPayload (hist : List (Nat × List Nat)) (h : Nat) :
    Option (List Nat) :=
  ((hist.filter fun hd => decide (hd.1 = h) && !hd.2.isEmpty).map
    Prod.snd).getLast?

theorem runSends_append (st : SenderState) (l₁ l₂ : List (Nat × List Nat)) :
    runSends st (l₁ ++ l₂) = runSends (runSends st l₁) l₂ :=
  List.foldl_append _ st l₁ l₂

/-- The sender's stored value for a handle is exactly the last non-empty
payload the history wrote to that handle. -/
theorem stored_runSends (hist : List (Nat × List Nat)) (h : Nat) :
    (runSends SenderState.empty hist).stored h = lastNonEmptyPayload hist h := by
  induction hist using List.reverseRecOn with
  | nil => rfl
  | append_singleton l a ih =>
      rw [runSends_append]
      rw [lastNonEmptyPayload, List.filter_append, List.map_append]
      by_cases hkeep : (a.1 = h ∧ a.2.isEmpty = false)
      · have hfa : List.filter
            (fun hd => decide (hd.1 = h) && !hd.2.isEmpty) [a] = [a] := by
          simp [List.filter, hkeep.1, hkeep.2]
        rw [hfa]
        show (sendValue (runSends SenderState.empty l) a.1 a.2).1.stored h =
          _
        rw [List.map_cons, List.map_nil, List.getLast?_concat]
        have hne : a.2.isEmpty = false := hkeep.2
        simp [sendValue, hne, hkeep.1]
      · have hfa : List.filter
            (fun hd => decide (hd.1 = h) && !hd.2.isEmpty) [a] = [] := by
          rcases Decidable.not_and_iff_or_not.mp hkeep with hc | hc
          · simp [List.filter, hc]
          · have : a.2.isEmpty = true := by
              cases he : a.2.isEmpty with
              | true => rfl
              | false => exact absurd he hc
            simp [List.filter, this]
        rw [hfa, List.map_nil, List.append_nil]
        show (sendValue (runSends SenderState.empty l) a.1 a.2).1.stored h =
          _
        rw [← lastNonEmptyPayload, ← ih]
        rcases Decidable.not_and_iff_or_not.mp hkeep with hc | hc
        · cases he : a.2.isEmpty with
          | true => simp [sendValue, he]
          | false =>
              simp [sendValue, he]
              intro heq
              exact absurd heq.symm hc
        · have he : a.2.isEmpty = true := by
            cases he : a.2.isEmpty with
            | true => rfl
            | false => exact absurd he hc
          simp [sendValue, he]

/-! ## Claim theorems: zero-length resend (C6) -/

/-- **C6.** For every notification or indication send request with a
zero-length payload, the value transmitted is the last non-empty payload
previously written to that value handle: after any history of sends, a
zero-length `ble_gatt_send_notif_req` or `ble_gatt_send_ind_req` on the
handle transmits exactly the stored value. -/
theorem c6_zero_length_resends_stored_value
    (hist : List (Nat × List Nat)) (par : ble_gatt_send_notif_ind_params)
    (data : List Nat) :
    (ble_gatt_send_notif_req (runSends SenderState.empty hist) par
        data 0).2 = lastNonEmptyPayload hist par.params.val_handle ∧
    (ble_gatt_send_ind_req (runSends SenderState.empty hist) par
        data 0).2 = lastNonEmptyPayload hist par.params.val_handle := by
  constructor
  · show (sendValue _ par.params.val_handle (data.take (0 % 65536))).2 = _
    rw [Nat.zero_mod, List.take_zero]
    show (runSends SenderState.empty hist).stored par.params.val_handle = _
    exact stored_runSends hist par.params.val_handle
  · show (sendValue _ par.params.val_handle (data.take (0 % 256))).2 = _
    rw [Nat.zero_mod, List.take_zero]
    show (runSends SenderState.empty hist).stored par.params.val_handle = _
    exact stored_runSends hist par.params.val_handle

/-! ## Wire widths of the length fields (C9) -/

/-- Modelled from the spec (§6 outbound framing): one `uint8_t` on the wire. -/
def encodeU8 (n : Nat) : List Nat := [n % 256]

/-- Modelled from the spec (§6 outbound framing): one `uint16_t` on the
wire, little-endian. -/
def encodeU16 (n : Nat) : List Nat := [n % 256, n / 256 % 256]

/-- Read back a little-endian `uint16_t` from the head of a byte list. -/
def decodeU16 (l : List Nat) : Nat := l.getD 0 0 + 256 * l.getD 1 0

/-- Read back a `uint8_t` from the head of a byte list. -/
def decodeU8 (l : List Nat) : Nat := l.getD 0 0

/-- Modelled from the spec (§6): the outbound message of
`ble_gatt_send_notif_req` mirrors `struct ble_gatt_send_notif_ind_params`
(conn_handle, val_handle, offset — three `uint16_t`) followed by the length
in the width the header declares for notifications (`uint16_t`,
gatt_internal.h:351) and the raw payload bytes. -/
def encode_send_notif_req (par : ble_gatt_send_notif_ind_params)
    (data : List Nat) (length : Nat) : List Nat :=
  encodeU16 par.conn_handle ++ encodeU16 par.params.val_handle ++
    encodeU16 par.params.offset ++ encodeU16 length ++ data

/-- Modelled from the spec (§6): the outbound message of
`ble_gatt_send_ind_req`, identical framing except that the length is the
width the header declares for indications (`uint8_t`,
gatt_internal.h:365). -/
def encode_send_ind_req (par : ble_gatt_send_notif_ind_params)
    (data : List Nat) (length : Nat) : List Nat :=
  encodeU16 par.conn_handle ++ encodeU16 par.params.val_handle ++
    encodeU16 par.params.offset ++ encodeU8 length ++ data

/-! ## Claim theorems: per-operation length widths (C9) -/

/-- **C9.** The per-operation length-field widths are preserved and not
unified: the notification request's encoded message carries a two-byte
(16-bit) length field faithfully representing any length below 2^16, the
indication request's carries a one-byte (8-bit) length field representing
lengths modulo 2^8, and the two encodings differ in size accordingly. -/
theorem c9_per_operation_length_widths
    (par : ble_gatt_send_notif_ind_params) (data : List Nat) (n : Nat) :
    ((encode_send_notif_req par data n).drop 6).take 2 = encodeU16 n ∧
    ((encode_send_ind_req par data n).drop 6).take 1 = encodeU8 n ∧
    decodeU16 ((encode_send_notif_req par data n).drop 6) = n % 65536 ∧
    decodeU8 ((encode_send_ind_req par data n).drop 6) = n % 256 ∧
    (encode_send_notif_req par data n).length = 8 + data.length ∧
    (encode_send_ind_req par data n).length = 7 + data.length := by
  refine ⟨?_, ?_, ?_, ?_, ?_, ?_⟩
  · simp [encode_send_notif_req, encodeU16]
  · simp [encode_send_ind_req, encodeU16, encodeU8]
  · show decodeU16 ((([par.conn_handle % 256,
      par.conn_handle / 256 % 256] ++ [par.params.val_handle % 256,
      par.params.val_handle / 256 % 256] ++ [par.params.offset % 256,
      par.params.offset / 256 % 256] ++ [n % 256, n / 256 % 256] ++
      data) : List Nat).drop 6) = n % 65536
    have hdrop : (([par.conn_handle % 256,
        par.conn_handle / 256 % 256] ++ [par.params.val_handle % 256,
        par.params.val_handle / 256 % 256] ++ [par.params.offset % 256,
        par.params.offset / 256 % 256] ++ [n % 256, n / 256 % 256] ++
        data) : List Nat).drop 6 = [n % 256, n / 256 % 256] ++ data := by
      simp
    rw [hdrop]
    cases data with
    | nil => show n % 256 + 256 * (n / 256 % 256) = n % 65536; omega
    | cons b bs => show n % 256 + 256 * (n / 256 % 256) = n % 65536; omega
  · show decodeU8 ((([par.conn_handle % 256,
      par.conn_handle / 256 % 256] ++ [par.params.val_handle % 256,
      par.params.val_handle / 256 % 256] ++ [par.params.offset % 256,
      par.params.offset / 256 % 256] ++ [n % 256] ++
      data) : List Nat).drop 6) = n % 256
    have hdrop : (([par.conn_handle % 256,
        par.conn_handle / 256 % 256] ++ [par.params.val_handle % 256,
        par.params.val_handle / 256 % 256] ++ [par.params.offset % 256,
        par.params.offset / 256 % 256] ++ [n % 256] ++
        data) : List Nat).drop 6 = [n % 256] ++ data := by
      simp
    rw [hdrop]
    rfl
  · simp [encode_send_notif_req, encodeU16]
    omega
  · simp [encode_send_ind_req, encodeU16, encodeU8]
    omega
